import Mathlib

/-!
Verification of the failure-classification pipeline of the Solana Error
Translator backend (src/backend/app/main.py).

The embedding models, faithfully to the source:
  * the compiled regular expression `_ERROR_PATTERN`
    (`Program (\S+) failed: custom program error: (0x[0-9a-fA-F]+)` with
    `re.IGNORECASE`, applied with `re.search` to each log line);
  * the helpers `_lookup_error` and `_program_name` over the loaded
    `ERROR_DB` dictionary;
  * the request handler `analyze_transaction`, with the network fetch
    abstracted as an external collaborator.

Python strings are modelled as Lean `String`/`List Char`.  Case folding is
modelled on the ASCII range (`asciiLower`), matching the regex engine's
per-character lowercasing on all characters that the pattern's literals and
character classes contain; exotic Unicode case folding is out of scope.
Exceptions raised by the handler (`raise HTTPException`) are modelled as the
`Except.error` branch of the result; returned response dictionaries are the
`Except.ok` branch.
-/

namespace SolanaErrorTranslator

/-- Python whitespace (the character set of `str.isspace`, which also
underlies the regex class `\s`, hence `\S` in the pattern): ASCII whitespace
and control separators plus the Unicode space separators. -/
def isPySpace (c : Char) : Bool :=
  decide (c.toNat = 32 ∨ (9 ≤ c.toNat ∧ c.toNat ≤ 13) ∨
    (28 ≤ c.toNat ∧ c.toNat ≤ 31) ∨ c.toNat = 133 ∨ c.toNat = 160 ∨
    c.toNat = 5760 ∨ (8192 ≤ c.toNat ∧ c.toNat ≤ 8202) ∨ c.toNat = 8232 ∨
    c.toNat = 8233 ∨ c.toNat = 8239 ∨ c.toNat = 8287 ∨ c.toNat = 12288)

/-- Negation of `isPySpace`: the character class `\S` of the pattern. -/
def notWs (c : Char) : Bool := !isPySpace c

/-- ASCII lowercasing of one character, as the regex engine's `IGNORECASE`
comparison and Python's `str.lower` behave on the ASCII range. -/
def asciiLower (c : Char) : Char :=
  if 65 ≤ c.toNat ∧ c.toNat ≤ 90 then Char.ofNat (c.toNat + 32) else c

/-- `str.lower` on a whole string (ASCII range). -/
def asciiLowerStr (s : String) : String := ⟨s.data.map asciiLower⟩

/-- The character class `[0-9a-fA-F]` of the pattern. -/
def isHexDigitB (c : Char) : Bool :=
  decide ((48 ≤ c.toNat ∧ c.toNat ≤ 57) ∨ (97 ≤ c.toNat ∧ c.toNat ≤ 102) ∨
    (65 ≤ c.toNat ∧ c.toNat ≤ 70))

/-- For a scalar value below the surrogate range, `Char.ofNat` round-trips. -/
theorem toNat_char_ofNat {n : Nat} (h : n < 55296) : (Char.ofNat n).toNat = n := by
  have hv : n.isValidChar := Or.inl h
  rw [Char.ofNat, dif_pos hv]
  rfl

theorem asciiLower_def (d : Char) :
    asciiLower d = if 65 ≤ d.toNat ∧ d.toNat ≤ 90 then Char.ofNat (d.toNat + 32) else d :=
  rfl

/-- ASCII lowercasing is idempotent. -/
theorem asciiLower_idem (c : Char) : asciiLower (asciiLower c) = asciiLower c := by
  by_cases h : 65 ≤ c.toNat ∧ c.toNat ≤ 90
  · have h2 : (asciiLower c).toNat = c.toNat + 32 := by
      rw [asciiLower_def c, if_pos h]
      exact toNat_char_ofNat (by omega)
    rw [asciiLower_def (asciiLower c), if_neg (by omega)]
  · have hc : asciiLower c = c := by rw [asciiLower_def c, if_neg h]
    rw [hc, hc]

/-- The literal `Program ` that opens `_ERROR_PATTERN`. -/
def pLit : List Char := "Program ".data

/-- The literal ` failed: custom program error: ` between the two groups of
`_ERROR_PATTERN`. -/
def fLit : List Char := " failed: custom program error: ".data

/-- The literal `0x` that opens the second group of `_ERROR_PATTERN`. -/
def xLit : List Char := "0x".data

/-- Consume a literal case-insensitively (the regex engine's `IGNORECASE`
comparison of a literal against the input): returns the rest of the input on
success. -/
def stripCaseless : List Char → List Char → Option (List Char)
  | [], l => some l
  | _ :: _, [] => none
  | p :: ps, c :: cs => if asciiLower p = asciiLower c then stripCaseless ps cs else none

/--
Attempt of `_ERROR_PATTERN` at a fixed position of the input (the anchored
match attempt the regex engine performs at each start offset).  Returns the
two capture groups `(\S+)` and `(0x[0-9a-fA-F]+)` on success.

Greediness resolves deterministically here: `\S+` cannot cross the space
that opens the following literal, so it must take the whole contiguous
non-whitespace run, and the trailing `[0-9a-fA-F]+` takes the maximal hex
run since nothing follows it in the pattern.
-/
def matchAt (l : List Char) : Option (List Char × List Char) :=
  match stripCaseless pLit l with
  | none => none
  | some r1 =>
    if r1.takeWhile notWs = [] then none
    else
      match stripCaseless fLit (r1.dropWhile notWs) with
      | none => none
      | some r3 =>
        match stripCaseless xLit r3 with
        | none => none
        | some r4 =>
          if r4.takeWhile isHexDigitB = [] then none
          else some (r1.takeWhile notWs, r3.take 2 ++ r4.takeWhile isHexDigitB)

/-- `re.search` of `_ERROR_PATTERN` on one line: try every start offset left
to right and return the first successful match's groups. -/
def searchLine : List Char → Option (List Char × List Char)
  | [] => none
  | c :: cs =>
    match matchAt (c :: cs) with
    | some m => some m
    | none => searchLine cs

/-- `_ERROR_PATTERN.search(line)` returning `(m.group(1), m.group(2))`. -/
def searchString (s : String) : Option (String × String) :=
  match searchLine s.data with
  | some (pid, code) => some (⟨pid⟩, ⟨code⟩)
  | none => none

/-- The data the scanning loop (main.py lines 137-147) extracts from the
first matching log line: `program_id`, the lowercased `error_code`, and the
matched line itself. -/
structure ScanMatch where
  program_id : String
  error_code : String
  matched_log : String
deriving DecidableEq

/-- The `for line in logs` loop of main.py lines 141-147: first line with a
match wins, its `error_code` group is lowercased, and the loop breaks. -/
def scanLogs : List String → Option ScanMatch
  | [] => none
  | line :: rest =>
    match searchString line with
    | some (pid, code) => some ⟨pid, asciiLowerStr code, line⟩
    | none => scanLogs rest

/-- One entry of a program's `errors` mapping in `errors.json`:
`{name, message}`. -/
structure ErrorEntry where
  name : String
  message : String
deriving DecidableEq

/-- One program's entry in `errors.json`: a display `name` and the
`errors` mapping keyed by lowercase hex code. -/
structure ProgramEntry where
  name : String
  errors : List (String × ErrorEntry)
deriving DecidableEq

/-- The loaded `ERROR_DB` dictionary, keyed by program id.  JSON objects are
modelled as association lists with unique keys; `dict.get` is first-match
lookup. -/
abbrev ErrorDB : Type := List (String × ProgramEntry)

/-- Python `dict.get(key)`: `Some` of the value bound to the key, else
`None`. -/
def dictGet {α : Type} : List (String × α) → String → Option α
  | [], _ => none
  | (k, v) :: rest, key => if k = key then some v else dictGet rest key

/-- main.py `_lookup_error`: return the error entry from `ERROR_DB`, or
`None` if the program or the lowercased code is absent.  (The source's
falsiness test `if not program_entry` and the `.get("errors", {})` default
coincide with plain absence for catalogs of the documented shape, where
every present program entry carries `name` and `errors`.) -/
def _lookup_error (db : ErrorDB) (program_id : String) (error_code : String) : Option ErrorEntry :=
  match dictGet db program_id with
  | none => none
  | some program_entry => dictGet program_entry.errors (asciiLowerStr error_code)

/-- main.py `_program_name`: the catalog's display name when the program is
present, else the program id itself. -/
def _program_name (db : ErrorDB) (program_id : String) : String :=
  match dictGet db program_id with
  | some entry => entry.name
  | none => program_id

/-- A raised `fastapi.HTTPException`: status code and detail string. -/
structure HTTPError where
  status_code : Nat
  detail : String
deriving DecidableEq

/-- The response dictionaries the handler returns, one constructor per
`status` value, carrying exactly the fields of the corresponding literal in
main.py. -/
inductive AnalyzeResponse where
  | success (message : String)
  | error_unparsed (message : String) (raw_logs : List String)
  | error_found (program_id program_name error_code name message : String)
  | error_unknown (program_id program_name error_code message raw_log : String)
deriving DecidableEq

/-- The part of `resp.value.transaction.meta` the handler reads: `err`
(success iff `None`; its payload is never inspected) and `log_messages`
(possibly `None`). -/
structure TransactionMeta where
  err : Option String
  log_messages : Option (List String)
deriving DecidableEq

/-- Outcome of the fetch step (step 2-3 of the handler): a `ValueError` from
`Signature.from_string` (malformed signature), any other exception while
reaching the RPC node, `resp.value is None` (not found), or a fetched
record. -/
inductive FetchOutcome where
  | valueError (exc : String)
  | fetchError (exc : String)
  | notFound
  | found (meta : TransactionMeta)
deriving DecidableEq

/-- Detail string of the 400 response (main.py line 106). -/
def invalidSigDetail (exc : String) : String :=
  "Invalid transaction signature: " ++ exc

/-- Detail string of the 502 response (main.py line 111). -/
def unreachableDetail (exc : String) : String :=
  "Failed to reach the Solana RPC node: " ++ exc

/-- Detail string of the 404 response (main.py lines 118-122). -/
def notFoundDetail : String :=
  "Transaction not found. The signature may be invalid, the transaction may not have been confirmed yet, or it may have been pruned from the RPC node\x27s history."

/-- Message of the `success` response (main.py line 131). -/
def successMessage : String :=
  "This transaction completed successfully — no errors were found."

/-- Message of the `error_unparsed` response (main.py lines 153-157). -/
def unparsedMessage : String :=
  "The transaction failed, but no custom program error code was found in the transaction logs. The error may be a system-level failure (e.g., insufficient SOL for fees, account not found)."

/-- Message of the `error_unknown` response (main.py lines 180-183). -/
def unknownCodeMessage (error_code : String) (program_id : String) : String :=
  "The transaction failed with error code " ++ error_code ++ " from program " ++ program_id ++ ", but this code is not yet in our database."

/-- Detail string of the 500 response for a missing RPC URL (main.py
line 87). -/
def rpcMissingDetail : String :=
  "SOLANA_RPC_URL is not set. Please create a .env file from .env.example."

/--
Steps 3-8 of the handler: turn the fetch outcome into either a raised
`HTTPException` (`Except.error`) or a returned response dictionary
(`Except.ok`).  The `valueError` and `fetchError` arms are the two `except`
clauses of step 2; `notFound` is step 3; a fetched record goes through the
success test, the log scan, and the catalog lookup of steps 4-8.
-/
def classify (db : ErrorDB) (outcome : FetchOutcome) : Except HTTPError AnalyzeResponse :=
  match outcome with
  | .valueError exc => .error ⟨400, invalidSigDetail exc⟩
  | .fetchError exc => .error ⟨502, unreachableDetail exc⟩
  | .notFound => .error ⟨404, notFoundDetail⟩
  | .found meta =>
    match meta.err with
    | none => .ok (.success successMessage)
    | some _ =>
      match scanLogs (meta.log_messages.getD []) with
      | none => .ok (.error_unparsed unparsedMessage (meta.log_messages.getD []))
      | some m =>
        match _lookup_error db m.program_id m.error_code with
        | some info =>
          .ok (.error_found m.program_id (_program_name db m.program_id) m.error_code info.name info.message)
        | none =>
          .ok (.error_unknown m.program_id (_program_name db m.program_id) m.error_code (unknownCodeMessage m.error_code m.program_id) m.matched_log)

/-- Python `str.strip()`: drop leading and trailing whitespace characters. -/
def pyStrip (s : String) : String :=
  ⟨((s.data.dropWhile isPySpace).reverse.dropWhile isPySpace).reverse⟩

/--
The whole handler `analyze_transaction`.  `rpcUrl` is `os.getenv` of
`SOLANA_RPC_URL` (`none` when unset; the source's falsiness test also
rejects the empty string); `fetch` abstracts the external collaborator —
`Signature.from_string` composed with `client.get_transaction` against the
given RPC URL — as a function of the URL and of the string the handler
passes to it, which is the stripped signature (main.py line 96).
-/
def analyze_transaction (rpcUrl : Option String) (db : ErrorDB)
    (fetch : String → String → FetchOutcome) (signature : String) :
    Except HTTPError AnalyzeResponse :=
  match rpcUrl with
  | none => .error ⟨500, rpcMissingDetail⟩
  | some url =>
    if url = "" then .error ⟨500, rpcMissingDetail⟩
    else classify db (fetch url (pyStrip signature))

/-- The declarative reading of `_ERROR_PATTERN` with `re.search` semantics:
the line contains, at some offset, the literal `Program ` (case-insensitive),
a nonempty run of non-whitespace, the literal
` failed: custom program error: ` (case-insensitive), a case-insensitive
`0x`, and a nonempty run of hex digits. -/
def containsErrorPattern (l : List Char) : Prop :=
  ∃ pre w1 pid w2 zx hex rest,
    l = pre ++ w1 ++ pid ++ w2 ++ zx ++ hex ++ rest ∧
    w1.map asciiLower = pLit.map asciiLower ∧
    pid ≠ [] ∧ (∀ c ∈ pid, notWs c = true) ∧
    w2.map asciiLower = fLit.map asciiLower ∧
    zx.map asciiLower = xLit.map asciiLower ∧
    hex ≠ [] ∧ (∀ c ∈ hex, isHexDigitB c = true)

/-- Whether a log line signals a custom program error: the scan step finds a
match of `_ERROR_PATTERN` in it. -/
def lineMatches (s : String) : Bool := (searchString s).isSome

/-- Consume a literal case-sensitively: returns the rest of the input on
success.  (Used only by `strictFormLine`, the spec-side reading.) -/
def stripExact : List Char → List Char → Option (List Char)
  | [], l => some l
  | _ :: _, [] => none
  | p :: ps, c :: cs => if p = c then stripExact ps cs else none

/-- The claim's strict reading of the pattern, written from the spec's
words: the line is, in its entirety, of the form
`Program <program_id> failed: custom program error: <hex_code>`, the two
literals taken verbatim (case-sensitively), with case-insensitivity applying
only to the `0x` prefix and the hex digits.  The parse is deterministic: the
program id must run up to the space that opens the second literal, and the
hex code must run to the end of the line. -/
def strictFormLine (s : String) : Bool :=
  match stripExact pLit s.data with
  | none => false
  | some r1 =>
    if r1.takeWhile notWs = [] then false
    else
      match stripExact fLit (r1.dropWhile notWs) with
      | none => false
      | some r3 =>
        match stripCaseless xLit r3 with
        | none => false
        | some r4 => decide (r4 ≠ [] ∧ ∀ c ∈ r4, isHexDigitB c = true)

/-- Lowercasing a whole string is idempotent. -/
theorem asciiLowerStr_idem (s : String) : asciiLowerStr (asciiLowerStr s) = asciiLowerStr s := by
  simp only [asciiLowerStr, List.map_map]
  congr 1
  apply List.map_congr_left
  intro a _
  exact asciiLower_idem a

/-- The `error_code` the scanning loop stores is already lowercase. -/
theorem scanLogs_error_code_lower :
    ∀ {logs : List String} {m : ScanMatch}, scanLogs logs = some m →
      asciiLowerStr m.error_code = m.error_code := by
  intro logs
  induction logs with
  | nil => intro m h; exact absurd h (by simp [scanLogs])
  | cons line rest ih =>
    intro m h
    unfold scanLogs at h
    split at h
    · rename_i pid code hs
      injection h with h
      subst h
      exact asciiLowerStr_idem code
    · exact ih h

/-- The head of a nonempty `dropWhile` result fails the predicate. -/
theorem dropWhile_eq_cons_head_false {α : Type} {p : α → Bool} :
    ∀ {l : List α} {c : α} {t : List α}, l.dropWhile p = c :: t → p c = false := by
  intro l
  induction l with
  | nil => intro c t h; simp [List.dropWhile] at h
  | cons x xs ih =>
    intro c t h
    by_cases hx : p x = true
    · rw [List.dropWhile_cons_of_pos hx] at h
      exact ih h
    · rw [List.dropWhile_cons_of_neg hx] at h
      injection h with h1 _
      subst h1
      simpa using hx

/-- `dropWhile` is idempotent. -/
theorem dropWhile_idem {α : Type} (p : α → Bool) (l : List α) :
    (l.dropWhile p).dropWhile p = l.dropWhile p := by
  cases hd : l.dropWhile p with
  | nil => rfl
  | cons c t =>
    have hc := dropWhile_eq_cons_head_false hd
    rw [List.dropWhile_cons_of_neg (by simp [hc])]

/-- `str.strip()` is idempotent. -/
theorem pyStrip_idem (s : String) : pyStrip (pyStrip s) = pyStrip s := by
  have hX : ∀ d : List Char,
      (((d.dropWhile isPySpace).reverse.dropWhile isPySpace).reverse).dropWhile isPySpace =
        ((d.dropWhile isPySpace).reverse.dropWhile isPySpace).reverse := by
    intro d
    cases hd : ((d.dropWhile isPySpace).reverse.dropWhile isPySpace).reverse with
    | nil => rfl
    | cons c t =>
      have hsplit :
          (d.dropWhile isPySpace).reverse.takeWhile isPySpace ++
            (d.dropWhile isPySpace).reverse.dropWhile isPySpace =
            (d.dropWhile isPySpace).reverse :=
        List.takeWhile_append_dropWhile _ _
      have hm2 : d.dropWhile isPySpace =
          ((d.dropWhile isPySpace).reverse.dropWhile isPySpace).reverse ++
            ((d.dropWhile isPySpace).reverse.takeWhile isPySpace).reverse := by
        calc d.dropWhile isPySpace = (d.dropWhile isPySpace).reverse.reverse :=
              (List.reverse_reverse _).symm
          _ = ((d.dropWhile isPySpace).reverse.takeWhile isPySpace ++
                (d.dropWhile isPySpace).reverse.dropWhile isPySpace).reverse := by
              rw [hsplit]
          _ = _ := by rw [List.reverse_append]
      rw [hd] at hm2
      rw [List.cons_append] at hm2
      have hc := dropWhile_eq_cons_head_false hm2
      rw [List.dropWhile_cons_of_neg (by simp [hc])]
  show String.mk _ = String.mk _
  simp only [pyStrip]
  congr 1
  rw [hX s.data, List.reverse_reverse, dropWhile_idem]

/-- A successful case-insensitive literal consumption splits the input. -/
theorem stripCaseless_sound :
    ∀ {pat l r : List Char}, stripCaseless pat l = some r →
      ∃ w, l = w ++ r ∧ w.map asciiLower = pat.map asciiLower := by
  intro pat
  induction pat with
  | nil =>
    intro l r h
    simp only [stripCaseless, Option.some.injEq] at h
    exact ⟨[], by simp [h], by simp⟩
  | cons p ps ih =>
    intro l r h
    cases l with
    | nil => simp [stripCaseless] at h
    | cons c cs =>
      rw [stripCaseless] at h
      split at h
      · rename_i heq
        obtain ⟨w, hw, hmap⟩ := ih h
        exact ⟨c :: w, by simp [hw], by simp [hmap, heq]⟩
      · exact absurd h (by simp)

/-- A case-insensitively equal prefix is consumed, leaving the rest. -/
theorem stripCaseless_complete :
    ∀ {pat w : List Char}, w.map asciiLower = pat.map asciiLower →
      ∀ r, stripCaseless pat (w ++ r) = some r := by
  intro pat
  induction pat with
  | nil =>
    intro w h r
    have hw : w = [] := by simpa using h
    subst hw
    rfl
  | cons p ps ih =>
    intro w h r
    cases w with
    | nil => simp at h
    | cons c cs =>
      simp only [List.map_cons, List.cons.injEq] at h
      rw [List.cons_append, stripCaseless, if_pos h.1.symm]
      exact ih h.2 r

/-- A successful match attempt at a fixed position decomposes the input into
the pattern's pieces and returns the two capture groups. -/
theorem matchAt_sound {l tok code : List Char} (h : matchAt l = some (tok, code)) :
    ∃ w1 w2 zx hex rest,
      l = w1 ++ tok ++ w2 ++ zx ++ hex ++ rest ∧
      w1.map asciiLower = pLit.map asciiLower ∧
      tok ≠ [] ∧ (∀ c ∈ tok, notWs c = true) ∧
      w2.map asciiLower = fLit.map asciiLower ∧
      zx.map asciiLower = xLit.map asciiLower ∧
      hex ≠ [] ∧ (∀ c ∈ hex, isHexDigitB c = true) ∧
      code = zx ++ hex := by
  unfold matchAt at h
  split at h
  · exact absurd h (by simp)
  rename_i r1 h1
  split at h
  · exact absurd h (by simp)
  rename_i htok
  split at h
  · exact absurd h (by simp)
  rename_i r3 h2
  split at h
  · exact absurd h (by simp)
  rename_i r4 h3
  split at h
  · exact absurd h (by simp)
  rename_i hhex
  injection h with h
  injection h with htokeq hcodeeq
  subst htokeq
  subst hcodeeq
  obtain ⟨w1, hl1, hmap1⟩ := stripCaseless_sound h1
  obtain ⟨w2, hr2, hmap2⟩ := stripCaseless_sound h2
  obtain ⟨zx, hr3, hmap3⟩ := stripCaseless_sound h3
  have hzxlen : zx.length = 2 := by
    have hlen := congrArg List.length hmap3
    simp only [List.length_map] at hlen
    rw [hlen]
    rfl
  have htake2 : r3.take 2 = zx := by
    rw [hr3]
    exact List.take_left' hzxlen
  have hr4 : r4 = r4.takeWhile isHexDigitB ++ r4.dropWhile isHexDigitB :=
    (List.takeWhile_append_dropWhile _ _).symm
  refine ⟨w1, w2, zx, r4.takeWhile isHexDigitB, r4.dropWhile isHexDigitB, ?_, hmap1, htok,
    ?_, hmap2, hmap3, hhex, ?_, ?_⟩
  · have hl : l = w1 ++ (r1.takeWhile notWs ++ (w2 ++ (zx ++
        (r4.takeWhile isHexDigitB ++ r4.dropWhile isHexDigitB)))) := by
      rw [hl1]
      congr 1
      calc r1 = r1.takeWhile notWs ++ r1.dropWhile notWs :=
            (List.takeWhile_append_dropWhile _ _).symm
        _ = r1.takeWhile notWs ++ (w2 ++ r3) := by rw [hr2]
        _ = r1.takeWhile notWs ++ (w2 ++ (zx ++ r4)) := by rw [hr3]
        _ = _ := by rw [← hr4]
    simpa [List.append_assoc] using hl
  · exact fun c hc => List.mem_takeWhile_imp hc
  · exact fun c hc => List.mem_takeWhile_imp hc
  · rw [htake2]

/-- A character whose ASCII lowercase is the space character is the space
character itself. -/
theorem eq_space_of_asciiLower_eq_space {c : Char} (h : asciiLower c = ' ') : c = ' ' := by
  rw [asciiLower_def] at h
  by_cases hc : 65 ≤ c.toNat ∧ c.toNat ≤ 90
  · rw [if_pos hc] at h
    have h2 := congrArg Char.toNat h
    rw [toNat_char_ofNat (by omega)] at h2
    have h32 : (' ' : Char).toNat = 32 := rfl
    omega
  · rwa [if_neg hc] at h

/-- An input that decomposes into the pattern's pieces at some position is
matched by the attempt at that position. -/
theorem matchAt_complete (rest : List Char) {w1 pid w2 zx hex : List Char}
    (h1 : w1.map asciiLower = pLit.map asciiLower)
    (hpid : pid ≠ []) (hpw : ∀ c ∈ pid, notWs c = true)
    (h2 : w2.map asciiLower = fLit.map asciiLower)
    (h3 : zx.map asciiLower = xLit.map asciiLower)
    (hhex : hex ≠ []) (hhw : ∀ c ∈ hex, isHexDigitB c = true) :
    (matchAt (w1 ++ (pid ++ (w2 ++ (zx ++ (hex ++ rest)))))).isSome = true := by
  have hf : fLit = ' ' :: ("failed: custom program error: ".data) := by decide
  obtain ⟨c2, w2t, hw2⟩ : ∃ c2 w2t, w2 = c2 :: w2t := by
    cases w2 with
    | nil => rw [hf] at h2; simp at h2
    | cons a b => exact ⟨a, b, rfl⟩
  have hc2 : c2 = ' ' := by
    rw [hw2, hf] at h2
    simp only [List.map_cons, List.cons.injEq] at h2
    have hsp : asciiLower ' ' = ' ' := by decide
    exact eq_space_of_asciiLower_eq_space (by rw [h2.1, hsp])
  rw [hc2] at hw2
  have hnws : notWs ' ' = false := by decide
  have hstep1 : stripCaseless pLit (w1 ++ (pid ++ (w2 ++ (zx ++ (hex ++ rest))))) =
      some (pid ++ (w2 ++ (zx ++ (hex ++ rest)))) := stripCaseless_complete h1 _
  have htw : (pid ++ (w2 ++ (zx ++ (hex ++ rest)))).takeWhile notWs = pid := by
    rw [List.takeWhile_append_of_pos hpw, hw2, List.cons_append,
      List.takeWhile_cons_of_neg (by simp [hnws])]
    simp
  have hdw : (pid ++ (w2 ++ (zx ++ (hex ++ rest)))).dropWhile notWs =
      w2 ++ (zx ++ (hex ++ rest)) := by
    rw [List.dropWhile_append_of_pos hpw, hw2, List.cons_append,
      List.dropWhile_cons_of_neg (by simp [hnws])]
  have hstep2 : stripCaseless fLit (w2 ++ (zx ++ (hex ++ rest))) =
      some (zx ++ (hex ++ rest)) := stripCaseless_complete h2 _
  have hstep3 : stripCaseless xLit (zx ++ (hex ++ rest)) = some (hex ++ rest) :=
    stripCaseless_complete h3 _
  have hth : (hex ++ rest).takeWhile isHexDigitB =
      hex ++ rest.takeWhile isHexDigitB := List.takeWhile_append_of_pos hhw
  unfold matchAt
  rw [hstep1]
  simp only [htw, hdw, hstep2, hstep3, hth]
  rw [if_neg hpid, if_neg (by simp [hhex])]
  rfl

/-- If the pattern matches at some position (after a prefix `a`), the
left-to-right search succeeds. -/
theorem searchLine_of_matchAt :
    ∀ {a b : List Char}, (matchAt b).isSome = true → (searchLine (a ++ b)).isSome = true := by
  intro a
  induction a with
  | nil =>
    intro b h
    cases b with
    | nil => rw [show matchAt [] = none from rfl] at h; simp at h
    | cons c cs =>
      rw [List.nil_append, searchLine]
      cases hm : matchAt (c :: cs) with
      | some m => simp
      | none => rw [hm] at h; simp at h
  | cons x a' ih =>
    intro b h
    rw [List.cons_append, searchLine]
    cases hm : matchAt (x :: (a' ++ b)) with
    | some m => simp
    | none => simpa using ih h

/-- A successful search is a successful match attempt at some position. -/
theorem searchLine_sound :
    ∀ {l : List Char} {m : List Char × List Char}, searchLine l = some m →
      ∃ a b, l = a ++ b ∧ matchAt b = some m := by
  intro l
  induction l with
  | nil => intro m h; simp [searchLine] at h
  | cons c cs ih =>
    intro m h
    rw [searchLine] at h
    cases hm : matchAt (c :: cs) with
    | some m2 =>
      rw [hm] at h
      injection h with h
      exact ⟨[], c :: cs, rfl, by rw [hm, h]⟩
    | none =>
      rw [hm] at h
      obtain ⟨a, b, hab, hmb⟩ := ih h
      exact ⟨c :: a, b, by rw [List.cons_append, hab], hmb⟩

/-- `searchString` succeeds exactly when the underlying character-level
search does. -/
theorem searchString_isSome (s : String) :
    (searchString s).isSome = (searchLine s.data).isSome := by
  unfold searchString
  cases h : searchLine s.data with
  | none => rfl
  | some m => cases m with | mk a b => rfl

/-- When no line contains a match, the scanning loop finds nothing. -/
theorem scanLogs_none :
    ∀ {logs : List String}, (∀ s ∈ logs, searchString s = none) → scanLogs logs = none := by
  intro logs
  induction logs with
  | nil => intro _; rfl
  | cons a rest ih =>
    intro h
    have ha := h a (List.mem_cons_self a rest)
    simp only [scanLogs, ha]
    exact ih fun s hs => h s (List.mem_cons_of_mem a hs)

/-- The scanning loop returns the first matching line's data, the code
lowercased. -/
theorem scanLogs_first :
    ∀ {pre : List String} {line : String} {post : List String} {pid code : String},
      (∀ s ∈ pre, searchString s = none) → searchString line = some (pid, code) →
      scanLogs (pre ++ line :: post) = some ⟨pid, asciiLowerStr code, line⟩ := by
  intro pre
  induction pre with
  | nil =>
    intro line post pid code _ hline
    simp only [List.nil_append, scanLogs, hline]
  | cons a rest ih =>
    intro line post pid code hpre hline
    have ha := hpre a (List.mem_cons_self a rest)
    rw [List.cons_append]
    simp only [scanLogs, ha]
    exact ih (fun s hs => hpre s (List.mem_cons_of_mem a hs)) hline

/-- A concrete catalog of the shape of `errors.json`, used by the witness
theorems: one program with display name `Token Program` and one error code
`0x1`. -/
def sampleDB : ErrorDB :=
  [(("ABC123"), ⟨("Token Program"), [(("0x1"), ⟨("Unauthorized"), ("Signer mismatch")⟩)]⟩)]

/-- C6: `_lookup_error` returns `None` when the program id is absent from
the catalog or the (normalized) code is unknown under that program, and it
normalizes `error_code` to lowercase before comparison, so any two codes
with the same lowercasing give the same result. -/
theorem C6_lookup_none_and_case_insensitive (db : ErrorDB) (pid c1 c2 code : String) :
    (dictGet db pid = none → _lookup_error db pid code = none) ∧
    (∀ pe, dictGet db pid = some pe → dictGet pe.errors (asciiLowerStr code) = none →
      _lookup_error db pid code = none) ∧
    (asciiLowerStr c1 = asciiLowerStr c2 → _lookup_error db pid c1 = _lookup_error db pid c2) := by
  refine ⟨?_, ?_, ?_⟩
  · intro h
    simp only [_lookup_error, h]
  · intro pe h1 h2
    simp only [_lookup_error, h1, h2]
  · intro h
    simp only [_lookup_error, h]

/-- C6 witness: on the sample catalog, an unknown program and an unknown
code give `None`, and `0X1` finds the entry keyed `0x1`. -/
theorem C6_witness :
    _lookup_error sampleDB ("Nope") ("0x1") = none ∧
    _lookup_error sampleDB ("ABC123") ("0x9") = none ∧
    _lookup_error sampleDB ("ABC123") ("0X1") = _lookup_error sampleDB ("ABC123") ("0x1") :=
  ⟨(C6_lookup_none_and_case_insensitive sampleDB ("Nope") ("") ("") ("0x1")).1 (by decide),
   (C6_lookup_none_and_case_insensitive sampleDB ("ABC123") ("") ("") ("0x9")).2.1
     ⟨("Token Program"), [(("0x1"), ⟨("Unauthorized"), ("Signer mismatch")⟩)]⟩
     (by decide) (by decide),
   (C6_lookup_none_and_case_insensitive sampleDB ("ABC123") ("0X1") ("0x1") ("x")).2.2 (by decide)⟩

/-- C7: `_program_name` is total — it returns the catalog's display name
when the program id is present and the id itself otherwise, never an
error. -/
theorem C7_display_name_total (db : ErrorDB) (pid : String) :
    (dictGet db pid = none → _program_name db pid = pid) ∧
    (∀ pe, dictGet db pid = some pe → _program_name db pid = pe.name) := by
  constructor
  · intro h
    simp only [_program_name, h]
  · intro pe h
    simp only [_program_name, h]

/-- C7 witness: an unknown id comes back unchanged; the sample program's
display name is returned. -/
theorem C7_witness :
    _program_name sampleDB ("XYZ") = ("XYZ") ∧
    _program_name sampleDB ("ABC123") = ("Token Program") :=
  ⟨(C7_display_name_total sampleDB ("XYZ")).1 (by decide),
   (C7_display_name_total sampleDB ("ABC123")).2
     ⟨("Token Program"), [(("0x1"), ⟨("Unauthorized"), ("Signer mismatch")⟩)]⟩ (by decide)⟩

/-- C8: classification is a deterministic, total function of the fetch
outcome and the log lines: two records agreeing on success (`err is None`)
and on the normalized log list classify identically — the `err` payload and
the `None`-versus-`[]` distinction in `log_messages` cannot influence the
result, and no other input exists (the catalog is an explicit parameter). -/
theorem C8_deterministic (db : ErrorDB) (m m' : TransactionMeta)
    (h1 : m.err.isNone = m'.err.isNone)
    (h2 : m.log_messages.getD [] = m'.log_messages.getD []) :
    classify db (.found m) = classify db (.found m') := by
  unfold classify
  cases he : m.err with
  | none =>
    cases he' : m'.err with
    | none => simp only [he, he']
    | some e' => rw [he, he'] at h1; simp at h1
  | some e =>
    cases he' : m'.err with
    | none => rw [he, he'] at h1; simp at h1
    | some e' => simp only [he, he', h2]

/-- C8 witness: two records differing only in the `err` payload and in
`None`-versus-`[]` logs classify identically. -/
theorem C8_witness :
    classify sampleDB (.found ⟨some ("x"), none⟩) =
      classify sampleDB (.found ⟨some ("y"), some []⟩) :=
  C8_deterministic sampleDB ⟨some ("x"), none⟩ ⟨some ("y"), some []⟩ (by decide) (by decide)

/-- C9: a failed record whose `log_messages` is `None` is treated as having
empty logs (`meta.log_messages or []`) and classified `error_unparsed` with
an empty `raw_logs` list. -/
theorem C9_none_logs_unparsed (db : ErrorDB) (e : String) :
    classify db (.found ⟨some e, none⟩) =
      .ok (.error_unparsed unparsedMessage []) := rfl

/-- C1: for a failed record whose logs the scan step matches and whose
extracted `(program_id, error_code)` pair the catalog knows, `classify`
returns the `error_found` state carrying exactly the program id, the
program's display name, the (lowercase) error code, and the catalog entry's
name and message. -/
theorem C1_error_found (db : ErrorDB) (e : String) (logs : List String)
    (m : ScanMatch) (entry : ErrorEntry)
    (hscan : scanLogs logs = some m)
    (hlook : _lookup_error db m.program_id m.error_code = some entry) :
    classify db (.found ⟨some e, some logs⟩) =
      .ok (.error_found m.program_id (_program_name db m.program_id)
        m.error_code entry.name entry.message) ∧
    asciiLowerStr m.error_code = m.error_code := by
  constructor
  · simp only [classify, Option.getD_some, hscan, hlook]
  · exact scanLogs_error_code_lower hscan

/-- C1 witness: the spec's scenario on the sample catalog. -/
theorem C1_witness :
    classify sampleDB (.found ⟨some ("e"),
        some [("Program ABC123 failed: custom program error: 0x1")]⟩) =
      .ok (.error_found ("ABC123") ("Token Program") ("0x1") ("Unauthorized")
        ("Signer mismatch")) ∧
    asciiLowerStr ("0x1") = ("0x1") :=
  C1_error_found sampleDB ("e") [("Program ABC123 failed: custom program error: 0x1")]
    ⟨("ABC123"), ("0x1"), ("Program ABC123 failed: custom program error: 0x1")⟩
    ⟨("Unauthorized"), ("Signer mismatch")⟩ (by decide) (by decide)

/-- C2 counterexample: the handler does not return the fetch-failure states
as values — `FetchFailed`, `FetchUnreachable` and `NotFound` are raised as
`HTTPException` (modelled by the `Except.error` branch, which is
constructor-distinct from every returned `Except.ok` response), so the
claim that they are produced as returned `ClassifiedResult` values and
never as thrown errors is false. -/
theorem C2_counterexample :
    classify [] FetchOutcome.notFound = Except.error ⟨404, notFoundDetail⟩ ∧
    classify [] (FetchOutcome.valueError ("bad")) =
      Except.error ⟨400, invalidSigDetail ("bad")⟩ ∧
    classify [] (FetchOutcome.fetchError ("down")) =
      Except.error ⟨502, unreachableDetail ("down")⟩ :=
  ⟨rfl, rfl, rfl⟩

/-- C2 (amended): the four record-handling states are always returned as
values — the classifier never raises on a fetched record — while the
malformed-signature, unreachable-node and not-found outcomes are raised as
`HTTPException` with statuses 400, 502 and 404. -/
theorem C2_amended_record_states_returned (db : ErrorDB) (meta : TransactionMeta)
    (exc : String) :
    (∃ r, classify db (.found meta) = .ok r) ∧
    classify db (.valueError exc) = .error ⟨400, invalidSigDetail exc⟩ ∧
    classify db (.fetchError exc) = .error ⟨502, unreachableDetail exc⟩ ∧
    classify db FetchOutcome.notFound = .error ⟨404, notFoundDetail⟩ := by
  refine ⟨?_, rfl, rfl, rfl⟩
  cases he : meta.err with
  | none => exact ⟨.success successMessage, by simp only [classify, he]⟩
  | some e =>
    cases hs : scanLogs (meta.log_messages.getD []) with
    | none =>
      exact ⟨.error_unparsed unparsedMessage (meta.log_messages.getD []),
        by simp only [classify, he, hs]⟩
    | some m =>
      cases hl : _lookup_error db m.program_id m.error_code with
      | none =>
        exact ⟨.error_unknown m.program_id (_program_name db m.program_id) m.error_code
          (unknownCodeMessage m.error_code m.program_id) m.matched_log,
          by simp only [classify, he, hs, hl]⟩
      | some info =>
        exact ⟨.error_found m.program_id (_program_name db m.program_id) m.error_code
          info.name info.message, by simp only [classify, he, hs, hl]⟩

/-- C3: the scan step returns `None` on a log sequence with no matching
line, and on a sequence with a matching line it returns the first match in
document order with the `error_code` group lowercased. -/
theorem C3_scan_first_match (logs pre post : List String) (line : String) :
    ((∀ s ∈ logs, searchString s = none) → scanLogs logs = none) ∧
    (logs = pre ++ line :: post → (∀ s ∈ pre, searchString s = none) →
      ∀ pid code, searchString line = some (pid, code) →
        scanLogs logs = some ⟨pid, asciiLowerStr code, line⟩) := by
  constructor
  · exact scanLogs_none
  · intro hlogs hpre pid code hline
    rw [hlogs]
    exact scanLogs_first hpre hline

/-- C3 witness: a mixed-case match on the second line wins over the later
match and is returned lowercased; a sequence without a match scans to
`None`. -/
theorem C3_witness :
    scanLogs [("ok"), ("Program A failed: custom program error: 0X1A"),
        ("Program B failed: custom program error: 0x2")] =
      some ⟨("A"), ("0x1a"), ("Program A failed: custom program error: 0X1A")⟩ ∧
    scanLogs [("nothing here")] = none :=
  ⟨(C3_scan_first_match
      [("ok"), ("Program A failed: custom program error: 0X1A"),
        ("Program B failed: custom program error: 0x2")]
      [("ok")] [("Program B failed: custom program error: 0x2")]
      ("Program A failed: custom program error: 0X1A")).2 rfl (by decide)
      ("A") ("0X1A") (by decide),
   (C3_scan_first_match [("nothing here")] [] [] ("")).1 (by decide)⟩

/-- C4 counterexample: with `SOLANA_RPC_URL` unset the process still handles
the analyze call and surfaces the missing configuration as a per-request
HTTP 500 error — contradicting the claim that a missing RPC URL prevents
serving and is never surfaced per request. -/
theorem C4_counterexample :
    analyze_transaction none [] (fun _ _ => FetchOutcome.notFound) ("sig") =
      Except.error ⟨500, rpcMissingDetail⟩ := rfl

/-- C4 (amended): a missing (or empty) `SOLANA_RPC_URL` is detected inside
each analyze call and answered with a per-request HTTP 500 error; with a
non-empty URL the handler proceeds to fetch and classify.  (Only the
catalog load at import time is startup-fatal.) -/
theorem C4_amended_rpc_checked_per_request (db : ErrorDB)
    (fetch : String → String → FetchOutcome) (s : String) :
    analyze_transaction none db fetch s = .error ⟨500, rpcMissingDetail⟩ ∧
    analyze_transaction (some ("")) db fetch s = .error ⟨500, rpcMissingDetail⟩ ∧
    ∀ url, url ≠ ("") →
      analyze_transaction (some url) db fetch s = classify db (fetch url (pyStrip s)) := by
  refine ⟨rfl, ?_, ?_⟩
  · simp only [analyze_transaction, if_true]
  · intro url h
    simp only [analyze_transaction, if_neg h]

/-- C4 witness: with the URL absent the call answers 500; with a non-empty
URL the fetch outcome is classified. -/
theorem C4_witness :
    analyze_transaction none [] (fun _ _ => FetchOutcome.notFound) ("s") =
      Except.error ⟨500, rpcMissingDetail⟩ ∧
    analyze_transaction (some ("http://node")) [] (fun _ _ => FetchOutcome.notFound) ("s") =
      classify [] FetchOutcome.notFound :=
  ⟨(C4_amended_rpc_checked_per_request [] (fun _ _ => FetchOutcome.notFound) ("s")).1,
   (C4_amended_rpc_checked_per_request [] (fun _ _ => FetchOutcome.notFound) ("s")).2.2
     ("http://node") (by decide)⟩

/-- C10: the handler strips the signature before parsing
(`body.signature.strip()`), so analyzing a signature and analyzing its
stripped form give the same result, and any two signatures that strip to
the same string are answered identically. -/
theorem C10_strip_signature (u : Option String) (db : ErrorDB)
    (fetch : String → String → FetchOutcome) (s s' : String)
    (h : pyStrip s = pyStrip s') :
    analyze_transaction u db fetch s = analyze_transaction u db fetch s' ∧
    analyze_transaction u db fetch s = analyze_transaction u db fetch (pyStrip s) := by
  constructor
  · simp only [analyze_transaction, h]
  · simp only [analyze_transaction, pyStrip_idem]

/-- C10 witness: surrounding whitespace on the signature does not change the
response. -/
theorem C10_witness :
    analyze_transaction (some ("u")) [] (fun _ sig => FetchOutcome.valueError sig)
        ("  sig  ") =
      analyze_transaction (some ("u")) [] (fun _ sig => FetchOutcome.valueError sig)
        ("sig") :=
  (C10_strip_signature (some ("u")) [] (fun _ sig => FetchOutcome.valueError sig)
    ("  sig  ") ("sig") (by decide)).1

/-- C5 counterexample: the scan step (via `re.search` with `IGNORECASE` on
the whole pattern) accepts a line that is not of the claimed form — the
pattern occurs mid-line and the literal words are in the wrong case — so
"a log line signals a custom program error exactly when it is of the form
`Program <program_id> failed: custom program error: <hex_code>` (with
case-insensitivity applying to the 0x prefix and the hex digits)" is false
on this line. -/
theorem C5_counterexample :
    lineMatches ("note: PROGRAM Foo FAILED: CUSTOM PROGRAM ERROR: 0xAB") = true ∧
    strictFormLine ("note: PROGRAM Foo FAILED: CUSTOM PROGRAM ERROR: 0xAB") = false := by
  decide

/-- C5 (amended): a log line signals a custom program error exactly when it
contains, at any position, a substring of the form
`Program <program_id> failed: custom program error: <hex_code>` — with
`<program_id>` a nonempty contiguous non-whitespace token and `<hex_code>` a
`0x`-prefixed nonempty hexadecimal literal — where case-insensitivity
applies to the whole pattern, the literal words included. -/
theorem C5_amended_pattern_characterization (s : String) :
    lineMatches s = true ↔ containsErrorPattern s.data := by
  constructor
  · intro h
    rw [show lineMatches s = (searchString s).isSome from rfl, searchString_isSome] at h
    obtain ⟨m, hm⟩ := Option.isSome_iff_exists.mp h
    obtain ⟨a, b, hab, hmb⟩ := searchLine_sound hm
    obtain ⟨tok, code⟩ := m
    obtain ⟨w1, w2, zx, hex, rest, hb, hm1, htok, htokw, hm2, hm3, hhex, hhexw, _⟩ :=
      matchAt_sound hmb
    refine ⟨a, w1, tok, w2, zx, hex, rest, ?_, hm1, htok, htokw, hm2, hm3, hhex, hhexw⟩
    rw [hab, hb]
    simp [List.append_assoc]
  · rintro ⟨pre, w1, pid, w2, zx, hex, rest, hdecomp, hm1, hpid, hpw, hm2, hm3, hhex, hhw⟩
    have hmatch := matchAt_complete rest hm1 hpid hpw hm2 hm3 hhex hhw
    have hsearch := searchLine_of_matchAt (a := pre) hmatch
    have hdata : s.data = pre ++ (w1 ++ (pid ++ (w2 ++ (zx ++ (hex ++ rest))))) := by
      rw [hdecomp]
      simp [List.append_assoc]
    rw [show lineMatches s = (searchString s).isSome from rfl, searchString_isSome, hdata]
    exact hsearch
